import Mathlib

/-!
# Verification of the manafa-google-analytics-chatbox request pipeline

Shallow embedding of the server request pipeline of the repository:

* `server/ga4.js` — the Analytics Query Executor (`queryGA4`): defaulting of
  query parameters, construction of the single `runReport` request,
  positional normalisation of the remote response into rows and totals, and
  string-match classification of remote failures;
* `server/groq.js` (and the gemini variant) — the Query Interpreter /
  Response Formatter (`processQuery`): history trimming, brace extraction
  from the raw model response, JSON parsing with degrade-to-text, and the
  catch-block classification of completion-API failures;
* `server/index.js` — the `/api/chat` orchestrator branching on the
  interpreter result.

The remote services (completion API, analytics reporting API) are modelled
as oracle functions passed to the embedded code, so one embedded definition
covers every possible remote behaviour.  JavaScript strings are `String` /
`List Char`; JS numbers arising from the decimal strings handled here are
kept in exact unnormalised decimal form (`mant * 10 ^ exp`), with explicit
`Infinity` / `NaN` variants.
-/

set_option autoImplicit false

namespace GAChat

/-! ## JavaScript string primitives used by the source -/

/-- `listStartsWith cs pat`: `cs` begins with the character sequence `pat`. -/
def listStartsWith : List Char → List Char → Bool
  | _, [] => true
  | [], _ :: _ => false
  | c :: cs, d :: ds => c = d && listStartsWith cs ds

/-- Substring containment on character lists. -/
def listContainsSeq : List Char → List Char → Bool
  | [], pat => pat.isEmpty
  | c :: cs, pat => listStartsWith (c :: cs) pat || listContainsSeq cs pat

/-- JS `s.includes(sub)` (case-sensitive substring test). -/
def strIncludes (s sub : String) : Bool := listContainsSeq s.data sub.data

/-- JS `x || d` for an optional string: `undefined` and `""` are falsy. -/
def jsOrStr (x : Option String) (d : String) : String :=
  match x with
  | none => d
  | some s => if s = "" then d else s

/-! ## JavaScript numbers

The metric values handled by `queryGA4` are decimal strings; we model the JS
numbers they convert to in exact unnormalised decimal form `mant * 10 ^ exp`
rather than as IEEE doubles, with explicit `Infinity`/`NaN` variants. -/

/-- Unnormalised decimal value `mant * 10 ^ exp`. -/
structure Dec where
  mant : Int
  exp : Int
  deriving DecidableEq

/-- Outcome of a JS numeric conversion: finite value, signed infinity, NaN. -/
inductive JNum where
  | finite (d : Dec)
  | inf (neg : Bool)
  | nan
  deriving DecidableEq

/-- A field value of a normalised analytics row: a string or a JS number. -/
inductive JVal where
  | str (s : String)
  | num (n : JNum)
  deriving DecidableEq

def digitVal (c : Char) : Nat := c.toNat - '0'.toNat

def decDigitsToNat (ds : List Char) : Nat :=
  ds.foldl (fun n c => 10 * n + digitVal c) 0

def isHexDigitChar (c : Char) : Bool :=
  c.isDigit || ('a' ≤ c && c ≤ 'f') || ('A' ≤ c && c ≤ 'F')

def hexDigitVal (c : Char) : Nat :=
  if c.isDigit then digitVal c
  else if 'a' ≤ c && c ≤ 'f' then c.toNat - 'a'.toNat + 10
  else c.toNat - 'A'.toNat + 10

def radixDigitsToNat (r : Nat) (ds : List Char) : Nat :=
  ds.foldl (fun n c => r * n + hexDigitVal c) 0

/-- JS whitespace recognised when converting strings to numbers. -/
def isJsWs (c : Char) : Bool :=
  c = ' ' || c = '\t' || c = '\n' || c = '\r' || c = '\x0B' || c = '\x0C' || c = '\xA0'

def trimJsWs (cs : List Char) : List Char :=
  ((cs.dropWhile isJsWs).reverse.dropWhile isJsWs).reverse

/-- One or more decimal digits, longest prefix. -/
def parseDigits1 (cs : List Char) : Option (Nat × List Char) :=
  let ds := cs.takeWhile Char.isDigit
  if ds.isEmpty then none else some (decDigitsToNat ds, cs.dropWhile Char.isDigit)

/-- Optional sign followed by at least one digit (an exponent tail). -/
def parseSignedDigits : List Char → Option (Int × List Char)
  | '+' :: r => (parseDigits1 r).map (fun p => ((p.1 : Int), p.2))
  | '-' :: r => (parseDigits1 r).map (fun p => (-(p.1 : Int), p.2))
  | r => (parseDigits1 r).map (fun p => ((p.1 : Int), p.2))

/-- `e`/`E` exponent part; a malformed exponent is left unconsumed (value 0),
matching the longest-valid-prefix rule of JS `parseFloat`. -/
def parseExpPart (cs : List Char) : Int × List Char :=
  match cs with
  | c :: rest =>
    if c = 'e' || c = 'E' then
      match parseSignedDigits rest with
      | some p => p
      | none => (0, c :: rest)
    else (0, c :: rest)
  | [] => (0, [])

/-- Longest prefix of `cs` that is an unsigned JS decimal numeral
(`digits [. digits] [exponent]`, also `.digits` and `digits.`); returns its
exact decimal value and the unconsumed rest. -/
def parseDecCore (cs : List Char) : Option (Dec × List Char) :=
  let intDs := cs.takeWhile Char.isDigit
  let rest1 := cs.dropWhile Char.isDigit
  let fracState : List Char × List Char :=
    match rest1 with
    | '.' :: r => (r.takeWhile Char.isDigit, r.dropWhile Char.isDigit)
    | _ => ([], rest1)
  let fracDs := fracState.1
  let rest2 := fracState.2
  if intDs.isEmpty && fracDs.isEmpty then none
  else
    let ep := parseExpPart rest2
    some (⟨(decDigitsToNat (intDs ++ fracDs) : Int), ep.1 - (fracDs.length : Int)⟩, ep.2)

def parseFloatBody (neg : Bool) (cs : List Char) : JNum :=
  if listStartsWith cs "Infinity".data then JNum.inf neg
  else
    match parseDecCore cs with
    | some p => JNum.finite ⟨if neg then -p.1.mant else p.1.mant, p.1.exp⟩
    | none => JNum.nan

/-- JS `parseFloat(s)`: skip leading whitespace, optional sign, then the
longest valid decimal prefix (`Infinity` allowed); `NaN` when no prefix. -/
def jsParseFloat (s : String) : JNum :=
  match s.data.dropWhile isJsWs with
  | '+' :: r => parseFloatBody false r
  | '-' :: r => parseFloatBody true r
  | r => parseFloatBody false r

/-- Whole-string unsigned decimal numeral. -/
def decFullValue (cs : List Char) : Option Dec :=
  match parseDecCore cs with
  | some (d, []) => some d
  | _ => none

def signedNumLiteral (neg : Bool) (cs : List Char) : JNum :=
  if cs = "Infinity".data then JNum.inf neg
  else
    match decFullValue cs with
    | some d => JNum.finite ⟨if neg then -d.mant else d.mant, d.exp⟩
    | none => JNum.nan

/-- Unsigned whole-string radix literal (`0x`, `0o`, `0b`). -/
def radixLiteral : List Char → Option Dec
  | '0' :: c :: ds =>
    if (c = 'x' || c = 'X') && !ds.isEmpty && ds.all isHexDigitChar then
      some ⟨(radixDigitsToNat 16 ds : Int), 0⟩
    else if (c = 'o' || c = 'O') && !ds.isEmpty && ds.all (fun d => '0' ≤ d && d ≤ '7') then
      some ⟨(radixDigitsToNat 8 ds : Int), 0⟩
    else if (c = 'b' || c = 'B') && !ds.isEmpty && ds.all (fun d => d = '0' || d = '1') then
      some ⟨(radixDigitsToNat 2 ds : Int), 0⟩
    else none
  | _ => none

/-- JS `Number(s)` for a string: trim, empty → 0, whole-string signed decimal
numeral, signed `Infinity`, or unsigned radix literal; otherwise `NaN`. -/
def jsToNumber (s : String) : JNum :=
  let cs := trimJsWs s.data
  if cs.isEmpty then JNum.finite ⟨0, 0⟩
  else
    match radixLiteral cs with
    | some d => JNum.finite d
    | none =>
      match cs with
      | '+' :: r => signedNumLiteral false r
      | '-' :: r => signedNumLiteral true r
      | r => signedNumLiteral false r

/-- JS `isNaN(s)` for a string value. -/
def jsIsNaN (s : String) : Bool := jsToNumber s = JNum.nan

/-- `isNaN(val) ? val : parseFloat(val)` — the metric-value normalisation of
`queryGA4` (ga4.js line 97). -/
def jsMetricValue (val : String) : JVal :=
  if jsIsNaN val then JVal.str val else JVal.num (jsParseFloat val)

/-! ## JSON values and `JSON.parse` -/

/-- A JSON value (numbers in exact decimal form). -/
inductive Json where
  | null
  | bool (b : Bool)
  | num (d : Dec)
  | str (s : String)
  | arr (elems : List Json)
  | obj (fields : List (String × Json))

def braceOpen : Char := Char.ofNat 123

def braceClose : Char := Char.ofNat 125

/-- JS object field assignment: a present key is overwritten in place,
a new key is appended. -/
def jsonObjSet (o : List (String × Json)) (k : String) (v : Json) :
    List (String × Json) :=
  if o.any (fun p => p.1 = k) then o.map (fun p => if p.1 = k then (k, v) else p)
  else o ++ [(k, v)]

def foldFields (l : List (String × Json)) : List (String × Json) :=
  l.foldl (fun acc kv => jsonObjSet acc kv.1 kv.2) []

def isJsonWs (c : Char) : Bool :=
  c = ' ' || c = '\t' || c = '\n' || c = '\r'

/-- Body of a JSON string after the opening quote: content and the rest
after the closing quote. -/
def parseJStringBody : List Char → Option (List Char × List Char)
  | [] => none
  | '"' :: cs => some ([], cs)
  | '\\' :: 'u' :: a :: b :: c :: d :: cs =>
    if isHexDigitChar a && isHexDigitChar b && isHexDigitChar c && isHexDigitChar d then
      (fun p => (Char.ofNat (radixDigitsToNat 16 [a, b, c, d]) :: p.1, p.2)) <$>
        parseJStringBody cs
    else none
  | '\\' :: e :: cs =>
    if e = '"' then (fun p => ('"' :: p.1, p.2)) <$> parseJStringBody cs
    else if e = '\\' then (fun p => ('\\' :: p.1, p.2)) <$> parseJStringBody cs
    else if e = '/' then (fun p => ('/' :: p.1, p.2)) <$> parseJStringBody cs
    else if e = 'b' then (fun p => ('\x08' :: p.1, p.2)) <$> parseJStringBody cs
    else if e = 'f' then (fun p => ('\x0C' :: p.1, p.2)) <$> parseJStringBody cs
    else if e = 'n' then (fun p => ('\n' :: p.1, p.2)) <$> parseJStringBody cs
    else if e = 'r' then (fun p => ('\r' :: p.1, p.2)) <$> parseJStringBody cs
    else if e = 't' then (fun p => ('\t' :: p.1, p.2)) <$> parseJStringBody cs
    else none
  | c :: cs =>
    if c.toNat < 0x20 then none
    else (fun p => (c :: p.1, p.2)) <$> parseJStringBody cs

/-- JSON integer part: `0` or a nonzero digit followed by digits. -/
def parseJInt (cs : List Char) : Option (List Char × List Char) :=
  match cs with
  | '0' :: rest => some (['0'], rest)
  | c :: rest =>
    if c.isDigit then some (c :: rest.takeWhile Char.isDigit, rest.dropWhile Char.isDigit)
    else none
  | [] => none

/-- JSON fraction part (may be absent; when present needs ≥ 1 digit). -/
def parseJFrac (cs : List Char) : Option (List Char × List Char) :=
  match cs with
  | '.' :: r =>
    let ds := r.takeWhile Char.isDigit
    if ds.isEmpty then none else some (ds, r.dropWhile Char.isDigit)
  | r => some ([], r)

/-- JSON exponent part (may be absent; when present needs ≥ 1 digit). -/
def parseJExp (cs : List Char) : Option (Int × List Char) :=
  match cs with
  | c :: r =>
    if c = 'e' || c = 'E' then parseSignedDigits r
    else some (0, c :: r)
  | [] => some (0, [])

/-- JSON number grammar `-? int frac? exp?`. -/
def parseJNumber (cs : List Char) : Option (Dec × List Char) :=
  let signState : Bool × List Char :=
    match cs with
    | '-' :: r => (true, r)
    | r => (false, r)
  match parseJInt signState.2 with
  | none => none
  | some (intDs, r1) =>
    match parseJFrac r1 with
    | none => none
    | some (fracDs, r2) =>
      match parseJExp r2 with
      | none => none
      | some (e, r3) =>
        let m : Int := (decDigitsToNat (intDs ++ fracDs) : Int)
        some (⟨if signState.1 then -m else m, e - (fracDs.length : Int)⟩, r3)

mutual

/-- One JSON value at the head of `cs` (leading whitespace already
skipped), by fuel-indexed recursive descent. -/
def parseJValue : Nat → List Char → Option (Json × List Char)
  | 0, _ => none
  | Nat.succ f, cs =>
    match cs with
    | [] => none
    | c :: r =>
      if c = braceOpen then
        let r1 := r.dropWhile isJsonWs
        match r1 with
        | c1 :: r2 =>
          if c1 = braceClose then some (Json.obj [], r2)
          else (fun p => (Json.obj (foldFields p.1), p.2)) <$> parseJObjectItems f r1
        | [] => none
      else if c = '[' then
        let r1 := r.dropWhile isJsonWs
        match r1 with
        | ']' :: r2 => some (Json.arr [], r2)
        | _ => (fun p => (Json.arr p.1, p.2)) <$> parseJArrayItems f r1
      else if c = '"' then
        (fun p => (Json.str (String.mk p.1), p.2)) <$> parseJStringBody r
      else if listStartsWith (c :: r) "true".data then some (Json.bool true, r.drop 3)
      else if listStartsWith (c :: r) "false".data then some (Json.bool false, r.drop 4)
      else if listStartsWith (c :: r) "null".data then some (Json.null, r.drop 3)
      else (fun p => (Json.num p.1, p.2)) <$> parseJNumber (c :: r)

/-- Comma-separated array items, terminated by `]`. -/
def parseJArrayItems : Nat → List Char → Option (List Json × List Char)
  | 0, _ => none
  | Nat.succ f, cs =>
    match parseJValue f cs with
    | none => none
    | some (v, r) =>
      match r.dropWhile isJsonWs with
      | ',' :: r2 => (fun p => (v :: p.1, p.2)) <$> parseJArrayItems f (r2.dropWhile isJsonWs)
      | ']' :: r2 => some ([v], r2)
      | _ => none

/-- Comma-separated `"key": value` pairs, in textual order. -/
def parseJObjectItems : Nat → List Char → Option (List (String × Json) × List Char)
  | 0, _ => none
  | Nat.succ f, cs =>
    match cs with
    | '"' :: r =>
      match parseJStringBody r with
      | none => none
      | some (key, r1) =>
        match r1.dropWhile isJsonWs with
        | ':' :: r2 =>
          match parseJValue f (r2.dropWhile isJsonWs) with
          | none => none
          | some (v, r3) =>
            match r3.dropWhile isJsonWs with
            | ',' :: r4 =>
              (fun p => ((String.mk key, v) :: p.1, p.2)) <$>
                parseJObjectItems f (r4.dropWhile isJsonWs)
            | c4 :: r4 =>
              if c4 = braceClose then some ([(String.mk key, v)], r4) else none
            | [] => none
        | _ => none
    | _ => none

end

/-- `JSON.parse` on a character list: whole-string parse of one value. -/
def jsonParse (cs : List Char) : Option Json :=
  match parseJValue (2 * cs.length + 2) (cs.dropWhile isJsonWs) with
  | some (v, rest) => if (rest.dropWhile isJsonWs).isEmpty then some v else none
  | none => none

/-- JS property access `obj.k`; `none` stands for `undefined`. -/
def getField (j : Json) (k : String) : Option Json :=
  match j with
  | Json.obj fields => (fields.find? (fun p => p.1 = k)).map (fun p => p.2)
  | _ => none

/-- JS truthiness of a possibly-undefined field value. -/
def jsTruthy : Option Json → Bool
  | none => false
  | some Json.null => false
  | some (Json.bool b) => b
  | some (Json.num d) => d.mant != 0
  | some (Json.str s) => s != ""
  | some (Json.arr _) => true
  | some (Json.obj _) => true

/-! ## Query Interpreter / Response Formatter — `server/groq.js`

`processQuery(message, history, isFormatting)` builds a message list
(system prompt, the last 8 history entries, the new user message), calls
the completion API once, and in non-formatting mode extracts and parses a
brace-delimited JSON span from the response text.  The completion API is
an oracle argument, so the embedding covers every remote behaviour. -/

/-- A role-tagged chat message. -/
structure ChatMessage where
  role : String
  content : String
  deriving DecidableEq

/-- The fixed interpretation instruction of groq.js (lines 11–58). -/
def SYSTEM_PROMPT : String := "You are a Google Analytics 4 data analyst assistant for a team. Your job is to interpret natural language questions about website analytics and convert them into GA4 API query parameters.

AVAILABLE GA4 DIMENSIONS:
- date, dateHour, dateHourMinute
- country, city, region, continent
- deviceCategory, browser, operatingSystem, platform
- pagePath, pageTitle, landingPage, landingPagePlusQueryString
- source, medium, sessionDefaultChannelGroup, campaignName
- newVsReturning, userAgeBracket, userGender
- eventName, isConversionEvent

AVAILABLE GA4 METRICS:
- totalUsers, newUsers, activeUsers, active1DayUsers, active7DayUsers, active28DayUsers
- sessions, sessionsPerUser, engagedSessions, engagementRate
- screenPageViews, screenPageViewsPerSession, screenPageViewsPerUser
- bounceRate, averageSessionDuration, userEngagementDuration
- eventCount, eventsPerSession, conversions
- totalRevenue, transactions

DATE FORMATS:
- Specific dates: \"YYYY-MM-DD\" (e.g., \"2026-01-15\")
- Relative dates: \"today\", \"yesterday\", \"NdaysAgo\" (e.g., \"7daysAgo\", \"30daysAgo\")

RULES:
1. Always respond with valid JSON
2. Choose appropriate dimensions and metrics based on the question
3. Use sensible date ranges (default: last 7 days)
4. Set reasonable limits (default: 20, max: 100)
5. If the question cannot be answered with GA4 data, respond with:
   \x7b\"type\": \"text\", \"content\": \"your explanation here\"\x7d
6. For ambiguous questions, make reasonable assumptions and note them

RESPONSE FORMAT for GA4 queries:
\x7b
  \"type\": \"ga4_query\",
  \"dimensions\": [\"dimension1\", \"dimension2\"],
  \"metrics\": [\"metric1\", \"metric2\"],
  \"startDate\": \"7daysAgo\",
  \"endDate\": \"yesterday\",
  \"limit\": 20,
  \"orderBys\": [\x7b\"metric\": \x7b\"metricName\": \"metricName\"\x7d, \"desc\": true\x7d]
\x7d

RESPONSE FORMAT for non-GA4 questions:
\x7b
  \"type\": \"text\",
  \"content\": \"Your helpful response here\"
\x7d"

/-- The fixed formatting instruction of groq.js (lines 60–72). -/
def FORMAT_SYSTEM_PROMPT : String := "You are a data analyst presenting Google Analytics insights to a team.
Format your responses using markdown for readability:
- Use tables for tabular data
- Use bullet points for key insights
- Bold important numbers and trends
- Include percentage changes where relevant
- Suggest 2-3 follow-up questions at the end
- Be concise but insightful
- Format numbers with commas (e.g., 1,234)
- Format percentages to 1 decimal place
- Format durations in human-readable format (e.g., \"2m 34s\" instead of 154.23)
- If bounce rate or engagement rate is a decimal (0.45), convert to percentage (45.0%)
Keep the tone professional but friendly."

/-- JS `l.slice(-n)`: the last `n` elements (all of them when `l` is
shorter). -/
def sliceLast {α : Type} (n : Nat) (l : List α) : List α := l.drop (l.length - n)

/-- The per-entry role conversion of the history loop (groq.js lines 85–90). -/
def convertMsg (m : ChatMessage) : ChatMessage :=
  { role := if m.role = "user" then "user" else "assistant", content := m.content }

/-- The `messages` array built by `processQuery` (groq.js lines 77–92):
system prompt, then `history.slice(-8)` converted in order, then the new
message as the final user turn. -/
def buildMessages (message : String) (history : List ChatMessage)
    (isFormatting : Bool) : List ChatMessage :=
  { role := "system",
    content := if isFormatting then FORMAT_SYSTEM_PROMPT else SYSTEM_PROMPT }
    :: ((sliceLast 8 history).map convertMsg ++ [{ role := "user", content := message }])

/-- The object `\x7b type: "text", content: t \x7d`. -/
def textResult (t : String) : Json :=
  Json.obj [("type", Json.str "text"), ("content", Json.str t)]

/-- The object `\x7b error: m \x7d`. -/
def errorResult (m : String) : Json := Json.obj [("error", Json.str m)]

/-- Position of the first opening brace. -/
def firstOpenIdx : List Char → Option Nat
  | [] => none
  | c :: cs => if c = braceOpen then some 0 else (firstOpenIdx cs).map (· + 1)

/-- Position of the last closing brace. -/
def lastCloseIdx : List Char → Option Nat
  | [] => none
  | c :: cs =>
    match lastCloseIdx cs with
    | some j => some (j + 1)
    | none => if c = braceClose then some 0 else none

/-- The greedy brace regex of groq.js line 109: the span from the first
opening brace to the last closing brace after it, when both exist. -/
def extractBraced (cs : List Char) : Option (List Char) :=
  match firstOpenIdx cs with
  | none => none
  | some i =>
    match lastCloseIdx cs with
    | none => none
    | some j => if i < j then some ((cs.drop i).take (j - i + 1)) else none

/-- The non-formatting parse step of `processQuery` (groq.js lines
108–119): extract the brace span, `JSON.parse` it, and fall back to a
`text` result when there is no match or the parse fails. -/
def parseResponse (text : String) : Json :=
  match extractBraced text.data with
  | none => textResult text
  | some sub =>
    match jsonParse sub with
    | some v => v
    | none => textResult text

/-- The catch block of `processQuery` (groq.js lines 120–133). -/
def groqCatchResult (errMsg : String) : Json :=
  if strIncludes errMsg "API" || strIncludes errMsg "key" then
    errorResult "Groq API key not configured. Please set GROQ_API_KEY in .env"
  else errorResult ("AI processing failed: " ++ errMsg)

/-- `processQuery(message, history, isFormatting)` of groq.js, with the
completion API as an oracle from the built message list to either a
thrown failure message or the possibly-missing response text
`response.choices[0]?.message?.content`. -/
def processQuery (complete : List ChatMessage → Except String (Option String))
    (message : String) (history : List ChatMessage) (isFormatting : Bool) : Json :=
  match complete (buildMessages message history isFormatting) with
  | Except.error errMsg => groqCatchResult errMsg
  | Except.ok content =>
    let text := jsOrStr content ""
    if isFormatting then textResult text else parseResponse text

/-! ## Orchestrator branching — `server/index.js` `/api/chat` -/

/-- Where the `/api/chat` handler goes after interpretation: a terminal
text payload (with the JS value placed in `content`, possibly
`undefined`), or on to `queryGA4` and the formatter. -/
inductive ChatBranch where
  | textReply (content : Option Json)
  | runQuery (params : Json)

/-- The branching of the `/api/chat` handler on the interpreter result
(index.js lines 121–136): a truthy `error` field returns a text payload,
then `type === "text"` returns a text payload; anything else is used as
the GA4 query parameters. -/
def chatDispatch (ga4Params : Json) : ChatBranch :=
  if jsTruthy (getField ga4Params "error") then
    ChatBranch.textReply (getField ga4Params "error")
  else
    match getField ga4Params "type" with
    | some (Json.str s) =>
      if s = "text" then ChatBranch.textReply (getField ga4Params "content")
      else ChatBranch.runQuery ga4Params
    | _ => ChatBranch.runQuery ga4Params

/-! ## Analytics Query Executor — `server/ga4.js`

`queryGA4(params)` defaults the absent fields of `params`, builds one
`runReport` request, and normalises the response positionally.  The
environment variable `GA4_PROPERTY_ID` and the remote `client.runReport`
call are passed in explicitly (`server/ga4.js` and the unnamed source
variant have byte-identical `queryGA4` bodies). -/

/-- An `orderBys` entry `\x7b metric: \x7b metricName \x7d, desc \x7d`.
`metricName` is `none` when the synthesized default reads `metrics[0]` of
an empty list (JS `undefined`). -/
structure OrderBy where
  metricName : Option String
  desc : Bool
  deriving DecidableEq

/-- The raw `params` object handed to `queryGA4`; `none` marks an absent
property, which picks up the destructuring default. -/
structure GA4Params where
  dimensions : Option (List String)
  metrics : Option (List String)
  startDate : Option String
  endDate : Option String
  limit : Option Int
  dimensionFilter : Option Json
  orderBys : Option (List OrderBy)

/-- The `request` object built by ga4.js lines 59–83 (dimension and metric
names are wrapped as `\x7b name \x7d` objects on the wire; we keep the
name lists). -/
structure RunReportRequest where
  property : String
  dateRanges : List (String × String)
  dimensions : List String
  metrics : List String
  limit : Int
  dimensionFilter : Option Json
  orderBys : List OrderBy

/-- JS destructuring default: the default applies only when the property
is absent. -/
def destructureD {α : Type} (x : Option α) (d : α) : α := x.getD d

/-- The destructured-with-defaults locals of ga4.js lines 48–56. -/
structure GA4Defaulted where
  dimensions : List String
  metrics : List String
  startDate : String
  endDate : String
  limit : Int
  dimensionFilter : Option Json
  orderBys : Option (List OrderBy)

def applyDefaults (params : GA4Params) : GA4Defaulted :=
  { dimensions := destructureD params.dimensions ["date"]
    metrics := destructureD params.metrics ["totalUsers", "sessions"]
    startDate := destructureD params.startDate "7daysAgo"
    endDate := destructureD params.endDate "yesterday"
    limit := destructureD params.limit 100
    dimensionFilter := params.dimensionFilter
    orderBys := params.orderBys }

/-- ga4.js lines 59–83: the single outbound request, with the filter kept
only when truthy and the ordering synthesized from the first metric when
`orderBys` is absent or empty. -/
def buildRequest (propertyId : String) (params : GA4Params) : RunReportRequest :=
  let d := applyDefaults params
  { property := "properties/" ++ propertyId
    dateRanges := [(d.startDate, d.endDate)]
    dimensions := d.dimensions
    metrics := d.metrics
    limit := d.limit
    dimensionFilter :=
      match d.dimensionFilter with
      | some f => if jsTruthy (some f) then some f else none
      | none => none
    orderBys :=
      match d.orderBys with
      | some obs => if obs.length > 0 then obs else [⟨d.metrics.head?, true⟩]
      | none => [⟨d.metrics.head?, true⟩] }

/-- A row of the remote response: positional dimension and metric values;
an entry is `none` when its `value` field is missing. -/
structure ReportRow where
  dimensionValues : List (Option String)
  metricValues : List (Option String)
  deriving DecidableEq

/-- The fields of the remote `runReport` response read by `queryGA4`. -/
structure RunReportResponse where
  rows : Option (List ReportRow)
  totals : Option (List ReportRow)
  rowCount : Option Int
  deriving DecidableEq

/-- `l[i]?.value`. -/
def optIdx (l : List (Option String)) (i : Nat) : Option String := (l.get? i).bind id

/-- `row.dimensionValues[i]?.value || ""` (ga4.js line 92). -/
def rowDimValue (r : ReportRow) (i : Nat) : String :=
  jsOrStr (optIdx r.dimensionValues i) ""

/-- `row.metricValues[i]?.value || "0"` (ga4.js lines 95 and 106). -/
def rowMetricRaw (r : ReportRow) (i : Nat) : String :=
  jsOrStr (optIdx r.metricValues i) "0"

/-- JS property assignment `parsed[k] = v` on a row object. -/
def objSet (o : List (String × JVal)) (k : String) (v : JVal) : List (String × JVal) :=
  if o.any (fun p => p.1 = k) then o.map (fun p => if p.1 = k then (k, v) else p)
  else o ++ [(k, v)]

/-- The `parsed` row object built by the two `forEach` loops of ga4.js
lines 89–99: dimension values first, then metric values, each zipped by
position. -/
def parseRow (dimensions metrics : List String) (row : ReportRow) :
    List (String × JVal) :=
  let withDims := dimensions.enum.foldl
    (fun acc p => objSet acc p.2 (JVal.str (rowDimValue row p.1))) []
  metrics.enum.foldl
    (fun acc p => objSet acc p.2 (jsMetricValue (rowMetricRaw row p.1))) withDims

/-- The `totals` object of ga4.js lines 102–109: from the first totals row
when the totals list is present and nonempty, else empty. -/
def parseTotalsObj (metrics : List String) (totals : Option (List ReportRow)) :
    List (String × JVal) :=
  match totals with
  | some (t :: _) =>
    metrics.enum.foldl
      (fun acc p => objSet acc p.2 (jsMetricValue (rowMetricRaw t p.1))) []
  | _ => []

/-- `response.rowCount || rows.length` (`0` and `undefined` are falsy). -/
def jsOrInt (x : Option Int) (d : Int) : Int :=
  match x with
  | some n => if n = 0 then d else n
  | none => d

structure ResultMetadata where
  rowCount : Int
  dimensions : List String
  metrics : List String
  dateRange : String × String
  propertyId : String
  deriving DecidableEq

/-- The normalised result `\x7b rows, totals, metadata \x7d`. -/
structure AnalyticsResult where
  rows : List (List (String × JVal))
  totals : List (String × JVal)
  metadata : ResultMetadata
  deriving DecidableEq

/-- The error-message rewriting of the catch block (ga4.js lines 122–136):
case-sensitive substring tests on the failure text. -/
def ga4CatchMessage (propertyId : String) (errMsg : String) : String :=
  if strIncludes errMsg "permission" then
    "Permission denied. Check service account access in GA4."
  else if strIncludes errMsg "not found" then
    "Property " ++ propertyId ++ " not found. Check your GA4_PROPERTY_ID."
  else errMsg

/-- `queryGA4(params)` of ga4.js: `propertyIdEnv` is the
`GA4_PROPERTY_ID` environment variable (`none` = unset) and `runReport`
is the remote call as an oracle from the built request to a response or a
thrown failure message. -/
def queryGA4 (propertyIdEnv : Option String)
    (runReport : RunReportRequest → Except String RunReportResponse)
    (params : GA4Params) : Except String AnalyticsResult :=
  match propertyIdEnv with
  | none => Except.error "GA4_PROPERTY_ID environment variable not set"
  | some propertyId =>
    let d := applyDefaults params
    let request := buildRequest propertyId params
    match runReport request with
    | Except.error errMsg => Except.error (ga4CatchMessage propertyId errMsg)
    | Except.ok response =>
      let rows := (destructureD response.rows []).map (parseRow d.dimensions d.metrics)
      Except.ok
        { rows := rows
          totals := parseTotalsObj d.metrics response.totals
          metadata :=
            { rowCount := jsOrInt response.rowCount (rows.length : Int)
              dimensions := d.dimensions
              metrics := d.metrics
              dateRange := (d.startDate, d.endDate)
              propertyId := propertyId } }

/-- Executable test for a brace pair with the opener before the closer —
exactly the condition under which the greedy regex of groq.js line 109
matches. -/
def hasBracePair : List Char → Bool
  | [] => false
  | c :: cs => (c = braceOpen && cs.any (fun x => x = braceClose)) || hasBracePair cs


/-- A concrete ten-message history. -/
def tenMessageHistory : List ChatMessage :=
  [⟨"user", "m1"⟩, ⟨"assistant", "m2"⟩, ⟨"user", "m3"⟩, ⟨"assistant", "m4"⟩,
   ⟨"user", "m5"⟩, ⟨"assistant", "m6"⟩, ⟨"user", "m7"⟩, ⟨"assistant", "m8"⟩,
   ⟨"user", "m9"⟩, ⟨"assistant", "m10"⟩]

/-- JS property read `row[k]` on a normalised row object. -/
def rowGet (o : List (String × JVal)) (k : String) : Option JVal :=
  (o.find? (fun p => p.1 = k)).map (fun p => p.2)

/-! ## C1 — classification of "permission" failures is case-sensitive -/

/-- **C1** (counterexample to the claim as stated). A remote failure whose
message is "PERMISSION DENIED" contains "permission" in upper case, yet
`queryGA4` propagates it unchanged instead of failing with the
permission-denied classification: the `includes("permission")` test of
ga4.js line 125 is case-sensitive. -/
theorem c1_counterexample :
    queryGA4 (some "404714744") (fun _ => Except.error "PERMISSION DENIED")
        ⟨none, some ["sessions"], none, none, none, none, none⟩ =
      Except.error "PERMISSION DENIED" ∧
    ("PERMISSION DENIED" : String) ≠
      "Permission denied. Check service account access in GA4." :=
  ⟨rfl, by decide⟩

/-- **C1** (amended). For every remote analytics failure whose message
contains the exact lower-case substring "permission", `queryGA4` fails
with the message "Permission denied. Check service account access in
GA4."; the classification is case-sensitive, so other casings fall
through to the later clauses. -/
theorem c1_permission_classification
    (pid errMsg : String) (params : GA4Params)
    (runReport : RunReportRequest → Except String RunReportResponse)
    (hfail : runReport (buildRequest pid params) = Except.error errMsg)
    (hperm : strIncludes errMsg "permission" = true) :
    queryGA4 (some pid) runReport params =
      Except.error "Permission denied. Check service account access in GA4." := by
  simp only [queryGA4, hfail, ga4CatchMessage, hperm, if_true]

/-- **C1** witness: the amended classification at a concrete lower-case
failure message. -/
theorem c1_witness :
    strIncludes "User does not have sufficient permissions" "permission" = true ∧
    queryGA4 (some "404714744")
        (fun _ => Except.error "User does not have sufficient permissions")
        ⟨none, some ["sessions"], none, none, none, none, none⟩ =
      Except.error "Permission denied. Check service account access in GA4." :=
  ⟨by decide, c1_permission_classification _ _ _ _ rfl (by decide)⟩

/-! ## C2 — completion-API failures degrade to an Error result, but the
fallback message embeds the raw provider text -/

/-- **C2** (counterexample to the claim as stated). A transport failure
whose message is "connection timed out" matches neither "API" nor "key",
so `processQuery` returns the fallback Error result whose message embeds
the raw provider exception text — contradicting "never includes the raw
provider exception text". -/
theorem c2_counterexample :
    processQuery (fun _ => Except.error "connection timed out") "hi" [] false =
      errorResult "AI processing failed: connection timed out" ∧
    strIncludes "AI processing failed: connection timed out" "connection timed out" = true :=
  ⟨rfl, by decide⟩

/-- **C2** (amended). On every completion-API failure, `processQuery`
in non-formatting mode returns an Error-variant result (it never throws
past its boundary): the fixed API-key message when the failure text
contains "API" or "key", and otherwise "AI processing failed: " followed
by the raw provider message (so the raw text is included in the
fallback). -/
theorem c2_error_classification (err message : String) (history : List ChatMessage) :
    ((strIncludes err "API" || strIncludes err "key") = true →
      processQuery (fun _ => Except.error err) message history false =
        errorResult "Groq API key not configured. Please set GROQ_API_KEY in .env") ∧
    ((strIncludes err "API" || strIncludes err "key") = false →
      processQuery (fun _ => Except.error err) message history false =
        errorResult ("AI processing failed: " ++ err)) ∧
    (∃ m : String, processQuery (fun _ => Except.error err) message history false =
      errorResult m) := by
  refine ⟨fun h => ?_, fun h => ?_, ?_⟩
  · simp only [processQuery, groqCatchResult, h, if_true]
  · simp only [processQuery, groqCatchResult, h, Bool.false_eq_true, if_false]
  · by_cases h : (strIncludes err "API" || strIncludes err "key") = true
    · exact ⟨"Groq API key not configured. Please set GROQ_API_KEY in .env",
        by simp only [processQuery, groqCatchResult, h, if_true]⟩
    · exact ⟨"AI processing failed: " ++ err,
        by simp only [processQuery, groqCatchResult]; rw [if_neg h]⟩

/-- **C2** witness: the classified fixed message at a concrete auth-like
failure. -/
theorem c2_witness :
    (strIncludes "Invalid API Key" "API" || strIncludes "Invalid API Key" "key") = true ∧
    processQuery (fun _ => Except.error "Invalid API Key") "show sessions" [] false =
      errorResult "Groq API key not configured. Please set GROQ_API_KEY in .env" :=
  ⟨by decide, (c2_error_classification "Invalid API Key" "show sessions" []).1 (by decide)⟩

/-! ## C6 — defaults applied to unset query-spec fields -/

/-- **C6**. `queryGA4(\x7bmetrics:["sessions"]\x7d)` builds the request
with dimensions=["date"], startDate="7daysAgo", endDate="yesterday",
limit=100 and a synthesized single-entry ordering by "sessions"
descending; and in general every unset field picks up its stated default
before the request is built. -/
theorem c6_default_filling :
    (∀ pid : String,
      buildRequest pid ⟨none, some ["sessions"], none, none, none, none, none⟩ =
        { property := "properties/" ++ pid
          dateRanges := [("7daysAgo", "yesterday")]
          dimensions := ["date"]
          metrics := ["sessions"]
          limit := 100
          dimensionFilter := none
          orderBys := [⟨some "sessions", true⟩] }) ∧
    (∀ (pid : String) (params : GA4Params), params.dimensions = none →
      (buildRequest pid params).dimensions = ["date"]) ∧
    (∀ (pid : String) (params : GA4Params), params.metrics = none →
      (buildRequest pid params).metrics = ["totalUsers", "sessions"]) ∧
    (∀ (pid : String) (params : GA4Params), params.startDate = none →
      (buildRequest pid params).dateRanges =
        [("7daysAgo", (applyDefaults params).endDate)]) ∧
    (∀ (pid : String) (params : GA4Params), params.endDate = none →
      (buildRequest pid params).dateRanges =
        [((applyDefaults params).startDate, "yesterday")]) ∧
    (∀ (pid : String) (params : GA4Params), params.limit = none →
      (buildRequest pid params).limit = 100) ∧
    (∀ (pid : String) (params : GA4Params), params.orderBys = none →
      (buildRequest pid params).orderBys =
        [⟨(applyDefaults params).metrics.head?, true⟩]) := by
  refine ⟨fun pid => rfl, fun pid params h => ?_, fun pid params h => ?_,
    fun pid params h => ?_, fun pid params h => ?_, fun pid params h => ?_,
    fun pid params h => ?_⟩ <;>
    simp only [buildRequest, applyDefaults, destructureD, h, Option.getD_none]

/-- **C6** witness: the general default-filling clauses applied to the
concrete spec of the claim. -/
theorem c6_witness :
    (⟨none, some ["sessions"], none, none, none, none, none⟩ : GA4Params).limit = none ∧
    (buildRequest "404714744"
      ⟨none, some ["sessions"], none, none, none, none, none⟩).limit = 100 ∧
    buildRequest "404714744" ⟨none, some ["sessions"], none, none, none, none, none⟩ =
      { property := "properties/404714744"
        dateRanges := [("7daysAgo", "yesterday")]
        dimensions := ["date"]
        metrics := ["sessions"]
        limit := 100
        dimensionFilter := none
        orderBys := [⟨some "sessions", true⟩] } :=
  ⟨rfl, c6_default_filling.2.2.2.2.2.1 "404714744" _ rfl,
    c6_default_filling.1 "404714744"⟩

/-! ## C4, C5, C9 — brace extraction and degrade-to-text parsing -/


lemma jsOrStr_some_empty (t : String) : jsOrStr (some t) "" = t := by
  unfold jsOrStr
  by_cases h : t = "" <;> simp [h]

lemma firstOpenIdx_sound {cs : List Char} {i : Nat}
    (h : firstOpenIdx cs = some i) : cs.get? i = some braceOpen := by
  induction cs generalizing i with
  | nil => simp [firstOpenIdx] at h
  | cons c t ih =>
    by_cases hc : c = braceOpen
    · simp only [firstOpenIdx, hc, if_true, Option.some.injEq] at h
      subst h
      simp [hc]
    · simp only [firstOpenIdx, hc, if_false, Option.map_eq_some'] at h
      obtain ⟨j, hj, rfl⟩ := h
      simpa using ih hj

lemma lastCloseIdx_sound {cs : List Char} {j : Nat}
    (h : lastCloseIdx cs = some j) : cs.get? j = some braceClose := by
  induction cs generalizing j with
  | nil => simp [lastCloseIdx] at h
  | cons c t ih =>
    unfold lastCloseIdx at h
    cases ht : lastCloseIdx t with
    | some k =>
      rw [ht] at h
      injection h with h
      subst h
      simpa using ih ht
    | none =>
      rw [ht] at h
      by_cases hc : c = braceClose
      · simp only [hc, if_true, Option.some.injEq] at h
        subst h
        simp [hc]
      · simp [hc] at h

lemma hasBracePair_of_get {cs : List Char} {i j : Nat}
    (hi : cs.get? i = some braceOpen) (hj : cs.get? j = some braceClose)
    (hij : i < j) : hasBracePair cs = true := by
  induction cs generalizing i j with
  | nil => simp at hi
  | cons c t ih =>
    cases i with
    | zero =>
      have hc : c = braceOpen := by simpa using hi
      cases j with
      | zero => omega
      | succ j' =>
        have hj' : t.get? j' = some braceClose := hj
        have hany : t.any (fun x => x = braceClose) = true := by
          rw [List.any_eq_true]
          exact ⟨braceClose, List.get?_mem hj', by simp⟩
        simp [hasBracePair, hc, hany]
    | succ i' =>
      cases j with
      | zero => omega
      | succ j' =>
        have := ih (i := i') (j := j') hi hj (by omega)
        simp [hasBracePair, this]

lemma hasBracePair_exists {cs : List Char} (h : hasBracePair cs = true) :
    ∃ i j, i < j ∧ cs.get? i = some braceOpen ∧ cs.get? j = some braceClose := by
  induction cs with
  | nil => simp [hasBracePair] at h
  | cons c t ih =>
    simp only [hasBracePair, Bool.or_eq_true, Bool.and_eq_true] at h
    rcases h with ⟨hc, hany⟩ | ht
    · rw [List.any_eq_true] at hany
      obtain ⟨x, hx, hxc⟩ := hany
      obtain ⟨j', hj'⟩ := List.get?_of_mem hx
      refine ⟨0, j' + 1, by omega, ?_, ?_⟩
      · simpa using of_decide_eq_true hc
      · have hxc' : x = braceClose := of_decide_eq_true hxc
        rw [hxc'] at hj'
        simpa using hj'
    · obtain ⟨i, j, hij, hi, hj⟩ := ih ht
      exact ⟨i + 1, j + 1, by omega, hi, hj⟩

lemma extractBraced_eq_none {cs : List Char}
    (h : hasBracePair cs = false) : extractBraced cs = none := by
  unfold extractBraced
  cases ho : firstOpenIdx cs with
  | none => rfl
  | some i =>
    cases hc : lastCloseIdx cs with
    | none => rfl
    | some j =>
      simp only
      rw [if_neg]
      intro hij
      rw [hasBracePair_of_get (firstOpenIdx_sound ho) (lastCloseIdx_sound hc) hij] at h
      cases h

/-- **C4**. When the model response text contains no opening brace
followed (anywhere later) by a closing brace — the only situation in
which the greedy regex fails — `processQuery` in non-formatting mode
returns the full original response as a `text` result; and that
executable condition is equivalent to the absence of any indexed brace
pair. -/
theorem c4_no_brace_passthrough (message t : String) (history : List ChatMessage)
    (h : hasBracePair t.data = false) :
    processQuery (fun _ => Except.ok (some t)) message history false = textResult t ∧
    ¬ ∃ i j, i < j ∧ t.data.get? i = some braceOpen ∧ t.data.get? j = some braceClose := by
  constructor
  · have hx : extractBraced t.data = none := extractBraced_eq_none h
    simp only [processQuery, jsOrStr_some_empty, Bool.false_eq_true, if_false,
      parseResponse, hx]
  · rintro ⟨i, j, hij, hi, hj⟩
    rw [hasBracePair_of_get hi hj hij] at h
    cases h

/-- **C4** witness: a brace-free model response at a concrete input. -/
theorem c4_witness :
    hasBracePair "I cannot answer that".data = false ∧
    processQuery (fun _ => Except.ok (some "I cannot answer that")) "q" [] false =
      textResult "I cannot answer that" :=
  ⟨by decide, (c4_no_brace_passthrough "q" "I cannot answer that" [] (by decide)).1⟩

/-- **C5**. When the extracted first-brace-to-last-brace span is not
valid JSON, `processQuery` in non-formatting mode returns the raw
response as a `text` result; and for every response the non-formatting
parse step is total, returning either the parsed JSON value or the text
fallback — it never fails. -/
theorem c5_malformed_json_degrades (message t : String) (history : List ChatMessage)
    (sub : List Char) (hx : extractBraced t.data = some sub)
    (hbad : jsonParse sub = none) :
    processQuery (fun _ => Except.ok (some t)) message history false = textResult t ∧
    (∀ u : String,
      (∃ s v, extractBraced u.data = some s ∧ jsonParse s = some v ∧ parseResponse u = v) ∨
      parseResponse u = textResult u) := by
  constructor
  · simp only [processQuery, jsOrStr_some_empty, Bool.false_eq_true, if_false,
      parseResponse, hx, hbad]
  · intro u
    rcases hx' : extractBraced u.data with _ | s
    · exact Or.inr (by simp only [parseResponse, hx'])
    · rcases hj : jsonParse s with _ | v
      · exact Or.inr (by simp only [parseResponse, hx', hj])
      · exact Or.inl ⟨s, v, rfl, hj, by simp only [parseResponse, hx', hj]⟩

/-- **C5** witness: a balanced but invalid JSON span at a concrete
input. -/
theorem c5_witness :
    extractBraced "\x7bbad\x7d".data = some "\x7bbad\x7d".data ∧
    jsonParse "\x7bbad\x7d".data = none ∧
    processQuery (fun _ => Except.ok (some "\x7bbad\x7d")) "q" [] false =
      textResult "\x7bbad\x7d" :=
  ⟨rfl, rfl, (c5_malformed_json_degrades "q" "\x7bbad\x7d" [] "\x7bbad\x7d".data rfl rfl).1⟩

/-- **C9**. When the extracted span parses as JSON, `processQuery`
returns the parsed value verbatim, with no validation of a `type` tag or
of any query-spec fields; in particular the response "\x7b\"foo\":1\x7d"
yields the bare object `\x7bfoo: 1\x7d`, which the `/api/chat` handler
then treats as GA4 query parameters (it has no truthy `error` field and
no `type === "text"`). -/
theorem c9_no_validation_of_parsed_json :
    (∀ (t : String) (sub : List Char) (v : Json),
      extractBraced t.data = some sub → jsonParse sub = some v → parseResponse t = v) ∧
    parseResponse "\x7b\"foo\":1\x7d" = Json.obj [("foo", Json.num ⟨1, 0⟩)] ∧
    chatDispatch (Json.obj [("foo", Json.num ⟨1, 0⟩)]) =
      ChatBranch.runQuery (Json.obj [("foo", Json.num ⟨1, 0⟩)]) := by
  refine ⟨fun t sub v hx hv => ?_, rfl, rfl⟩
  simp only [parseResponse, hx, hv]

/-- **C9** witness: the verbatim-return clause applied at the concrete
response of the claim. -/
theorem c9_witness :
    extractBraced "\x7b\"foo\":1\x7d".data = some "\x7b\"foo\":1\x7d".data ∧
    jsonParse "\x7b\"foo\":1\x7d".data = some (Json.obj [("foo", Json.num ⟨1, 0⟩)]) ∧
    parseResponse "\x7b\"foo\":1\x7d" = Json.obj [("foo", Json.num ⟨1, 0⟩)] :=
  ⟨rfl, rfl,
    c9_no_validation_of_parsed_json.1 "\x7b\"foo\":1\x7d" "\x7b\"foo\":1\x7d".data
      (Json.obj [("foo", Json.num ⟨1, 0⟩)]) rfl rfl⟩

/-! ## C7 — history trimming: the most recent 8 entries, oldest-first -/

/-- **C7**. `processQuery` forwards to the completion API the messages
`buildMessages message history isFormatting`: the system prompt, then
`history.slice(-8)` — a suffix of the history (so the most recent
entries, in their original relative order) of length `min 8
history.length`, contents preserved by the role conversion — then the
new message as the final user turn; a history of length 10 forwards
exactly the entries from index 2 on. -/
theorem c7_history_trimming (message : String) (history : List ChatMessage)
    (isFormatting : Bool) :
    buildMessages message history isFormatting =
      { role := "system",
        content := if isFormatting then FORMAT_SYSTEM_PROMPT else SYSTEM_PROMPT }
        :: ((sliceLast 8 history).map convertMsg ++
            [{ role := "user", content := message }]) ∧
    (sliceLast 8 history) <:+ history ∧
    (sliceLast 8 history).length = min 8 history.length ∧
    (∀ m : ChatMessage, (convertMsg m).content = m.content) ∧
    (history.length = 10 → sliceLast 8 history = history.drop 2) := by
  refine ⟨rfl, List.drop_suffix _ _, ?_, fun m => rfl, fun h10 => ?_⟩
  · simp only [sliceLast, List.length_drop]
    omega
  · simp only [sliceLast, h10]


/-- **C7** witness: a ten-message history whose first two entries are
dropped. -/
theorem c7_witness :
    tenMessageHistory.length = 10 ∧
    sliceLast 8 tenMessageHistory = tenMessageHistory.drop 2 :=
  ⟨rfl, (c7_history_trimming "q" tenMessageHistory false).2.2.2.2 rfl⟩

/-! ## C8 — the orchestrator short-circuits on Text and Error results -/

/-- **C8**. When the interpreter result is the Text variant the
`/api/chat` handler replies immediately with its content, and when it is
the Error variant (whose message, as produced by the interpreter's catch
block, is always nonempty) the handler replies immediately with the
error message; in both cases the branch is a text reply, never the one
that invokes `queryGA4` and the formatter. -/
theorem c8_short_circuit :
    (∀ content : String,
      chatDispatch (textResult content) =
        ChatBranch.textReply (some (Json.str content))) ∧
    (∀ m : String, m ≠ "" →
      chatDispatch (errorResult m) = ChatBranch.textReply (some (Json.str m))) ∧
    (∀ errMsg : String, ∃ m : String, m ≠ "" ∧ groqCatchResult errMsg = errorResult m) := by
  refine ⟨fun content => rfl, fun m hm => ?_, fun errMsg => ?_⟩
  · have hf : getField (errorResult m) "error" = some (Json.str m) := rfl
    simp only [chatDispatch, hf]
    rw [if_pos]
    show jsTruthy (some (Json.str m)) = true
    simpa [jsTruthy] using hm
  · by_cases h : (strIncludes errMsg "API" || strIncludes errMsg "key") = true
    · exact ⟨"Groq API key not configured. Please set GROQ_API_KEY in .env",
        by decide, by simp only [groqCatchResult, h, if_true]⟩
    · refine ⟨"AI processing failed: " ++ errMsg, ?_, by
        simp only [groqCatchResult]; rw [if_neg h]⟩
      intro hcontra
      have hlen := congrArg String.length hcontra
      rw [String.length_append] at hlen
      have h22 : ("AI processing failed: " : String).length = 22 := rfl
      rw [h22] at hlen
      simp at hlen

/-- **C8** witness: the Error-variant short circuit at a concrete
nonempty message. -/
theorem c8_witness :
    ("boom" : String) ≠ "" ∧
    chatDispatch (errorResult "boom") = ChatBranch.textReply (some (Json.str "boom")) ∧
    chatDispatch (textResult "I cannot answer that") =
      ChatBranch.textReply (some (Json.str "I cannot answer that")) :=
  ⟨by decide, c8_short_circuit.2.1 "boom" (by decide),
    c8_short_circuit.1 "I cannot answer that"⟩

/-! ## C10 — metric and dimension value normalisation -/

/-- **C10**. In the row and totals normalisation of `queryGA4`: a missing
or empty metric value at position `i` becomes the number 0 (the
substituted default string "0" is numeric-parsed); a missing dimension
value becomes the empty string; a metric string accepted by JS
`Number(...)` becomes the JS number `parseFloat(...)` of it; and a
non-numeric metric string is kept as the literal string. -/
theorem c10_value_normalisation :
    (∀ (row : ReportRow) (i : Nat), optIdx row.metricValues i = none →
      jsMetricValue (rowMetricRaw row i) = JVal.num (JNum.finite ⟨0, 0⟩)) ∧
    (∀ (row : ReportRow) (i : Nat), optIdx row.metricValues i = some "" →
      jsMetricValue (rowMetricRaw row i) = JVal.num (JNum.finite ⟨0, 0⟩)) ∧
    (∀ (row : ReportRow) (i : Nat), optIdx row.dimensionValues i = none →
      rowDimValue row i = "") ∧
    (∀ s : String, jsToNumber s ≠ JNum.nan →
      jsMetricValue s = JVal.num (jsParseFloat s)) ∧
    (∀ s : String, jsToNumber s = JNum.nan → jsMetricValue s = JVal.str s) ∧
    jsMetricValue "12.5" = JVal.num (JNum.finite ⟨125, -1⟩) ∧
    jsMetricValue "(not set)" = JVal.str "(not set)" := by
  refine ⟨fun row i h => ?_, fun row i h => ?_, fun row i h => ?_,
    fun s h => ?_, fun s h => ?_, by decide, by decide⟩
  · rw [rowMetricRaw, h]
    decide
  · rw [rowMetricRaw, h]
    decide
  · rw [rowDimValue, h]
    rfl
  · unfold jsMetricValue
    rw [if_neg]
    simpa [jsIsNaN] using h
  · unfold jsMetricValue
    rw [if_pos]
    simpa [jsIsNaN] using h

/-- **C10** witness: a row with no metric entry at position 0 normalises
to the number 0 there. -/
theorem c10_witness :
    optIdx (ReportRow.mk [some "20260101"] []).metricValues 0 = none ∧
    jsMetricValue (rowMetricRaw (ReportRow.mk [some "20260101"] []) 0) =
      JVal.num (JNum.finite ⟨0, 0⟩) :=
  ⟨rfl, c10_value_normalisation.1 (ReportRow.mk [some "20260101"] []) 0 rfl⟩

/-! ## C3 — metric values are zipped by position, never by name lookup -/


lemma objSet_of_not_mem {o : List (String × JVal)} {k : String} (v : JVal)
    (h : k ∉ o.map Prod.fst) : objSet o k v = o ++ [(k, v)] := by
  unfold objSet
  rw [if_neg]
  intro hc
  rw [List.any_eq_true] at hc
  obtain ⟨p, hp, hpk⟩ := hc
  exact h (List.mem_map.2 ⟨p, hp, of_decide_eq_true hpk⟩)

lemma foldl_objSet_fresh (f : Nat → JVal) :
    ∀ (l : List (Nat × String)) (o : List (String × JVal)),
      (o.map Prod.fst ++ l.map Prod.snd).Nodup →
      l.foldl (fun acc p => objSet acc p.2 (f p.1)) o =
        o ++ l.map (fun p => (p.2, f p.1)) := by
  intro l
  induction l with
  | nil =>
    intro o h
    simp
  | cons hd tl ih =>
    intro o h
    have hk : hd.2 ∉ o.map Prod.fst := by
      intro hmem
      exact (List.disjoint_of_nodup_append h) hmem (List.mem_cons_self _ _)
    rw [List.foldl_cons, objSet_of_not_mem (f hd.1) hk,
      ih (o ++ [(hd.2, f hd.1)]) (by simpa [List.append_assoc] using h)]
    simp

lemma enumFrom_map_snd {α : Type} : ∀ (n : Nat) (l : List α),
    (l.enumFrom n).map Prod.snd = l := by
  intro n l
  induction l generalizing n with
  | nil => rfl
  | cons a t ih =>
    show a :: (t.enumFrom (n + 1)).map Prod.snd = a :: t
    rw [ih (n + 1)]

lemma enum_map_snd {α : Type} (l : List α) : l.enum.map Prod.snd = l :=
  enumFrom_map_snd 0 l

lemma find?_append_of_none {α : Type} (p : α → Bool) {a : List α} (b : List α)
    (h : ∀ x ∈ a, p x = false) : (a ++ b).find? p = b.find? p := by
  induction a with
  | nil => rfl
  | cons x t ih =>
    rw [List.cons_append, List.find?_cons_of_neg, ih (fun y hy => h y (List.mem_cons_of_mem _ hy))]
    simp [h x (List.mem_cons_self _ _)]

lemma find?_enumFrom_pairs (f : Nat → JVal) :
    ∀ (l : List String) (n i : Nat) (h : i < l.length), l.Nodup →
      ((l.enumFrom n).map (fun p => (p.2, f p.1))).find?
          (fun q => q.1 = l.get ⟨i, h⟩) = some (l.get ⟨i, h⟩, f (n + i)) := by
  intro l
  induction l with
  | nil =>
    intro n i h
    exact absurd h (by simp)
  | cons a t ih =>
    intro n i h hnd
    cases i with
    | zero =>
      simp [List.find?]
    | succ i' =>
      have hnd' : t.Nodup := (List.nodup_cons.1 hnd).2
      have ha : a ∉ t := (List.nodup_cons.1 hnd).1
      have hlt : i' < t.length := by simpa using Nat.lt_of_succ_lt_succ h
      have hget : (a :: t).get ⟨i' + 1, h⟩ = t.get ⟨i', hlt⟩ := rfl
      rw [hget]
      have hne : a ≠ t.get ⟨i', hlt⟩ := fun hc => ha (hc ▸ List.get_mem t i' hlt)
      have hstep : ((a :: t).enumFrom n).map (fun p => (p.2, f p.1)) =
          (a, f n) :: (t.enumFrom (n + 1)).map (fun p => (p.2, f p.1)) := rfl
      rw [hstep, List.find?_cons_of_neg _ (by simpa using hne),
        ih (n + 1) i' hlt hnd']
      have harith : n + 1 + i' = n + (i' + 1) := by omega
      rw [harith]

lemma map_fst_pairs {β : Type} (l : List (Nat × String)) (f : Nat → β) :
    (l.map (fun p => (p.2, f p.1))).map Prod.fst = l.map Prod.snd := by
  induction l with
  | nil => rfl
  | cons a t ih => simp only [List.map_cons, ih]

lemma parseRow_eq_append (dims mets : List String) (row : ReportRow)
    (hnd : (dims ++ mets).Nodup) :
    parseRow dims mets row =
      dims.enum.map (fun p => (p.2, JVal.str (rowDimValue row p.1))) ++
        mets.enum.map (fun p => (p.2, jsMetricValue (rowMetricRaw row p.1))) := by
  have hdimsnd : dims.enum.map Prod.snd = dims := enumFrom_map_snd 0 dims
  have hmetsnd : mets.enum.map Prod.snd = mets := enumFrom_map_snd 0 mets
  have h1 : dims.enum.foldl
        (fun acc p => objSet acc p.2 (JVal.str (rowDimValue row p.1))) [] =
      dims.enum.map (fun p => (p.2, JVal.str (rowDimValue row p.1))) := by
    have := foldl_objSet_fresh (fun j => JVal.str (rowDimValue row j)) dims.enum []
      (by rw [List.map_nil, List.nil_append, hdimsnd]; exact hnd.of_append_left)
    simpa using this
  have h2 : mets.enum.foldl
        (fun acc p => objSet acc p.2 (jsMetricValue (rowMetricRaw row p.1)))
        (dims.enum.map (fun p => (p.2, JVal.str (rowDimValue row p.1)))) =
      dims.enum.map (fun p => (p.2, JVal.str (rowDimValue row p.1))) ++
        mets.enum.map (fun p => (p.2, jsMetricValue (rowMetricRaw row p.1))) := by
    exact foldl_objSet_fresh (fun j => jsMetricValue (rowMetricRaw row j)) mets.enum _
      (by rw [map_fst_pairs dims.enum (fun j => JVal.str (rowDimValue row j)),
        hdimsnd, hmetsnd]; exact hnd)
  show mets.enum.foldl
      (fun acc p => objSet acc p.2 (jsMetricValue (rowMetricRaw row p.1)))
      (dims.enum.foldl
        (fun acc p => objSet acc p.2 (JVal.str (rowDimValue row p.1))) []) = _
  rw [h1, h2]

/-- **C3**. With pairwise-distinct dimension and metric names (the data
model treats both as sets), the normalised row object of `queryGA4` has
key list exactly `dims ++ mets` (so exactly N metric keys for N
metrics), the value under the i-th metric name is the numeric-parsed
i-th positional metric value of the remote row, the totals object built
from the first totals row pairs the same way, and the rows and totals of
a successful `queryGA4` call are exactly these positional
normalisations; no name lookup into the remote response is involved. -/
theorem c3_positional_zip (dims mets : List String) (row trow : ReportRow)
    (hnd : (dims ++ mets).Nodup) :
    ((parseRow dims mets row).map Prod.fst = dims ++ mets) ∧
    (∀ (i : Nat) (h : i < mets.length),
      rowGet (parseRow dims mets row) (mets.get ⟨i, h⟩) =
        some (jsMetricValue (rowMetricRaw row i))) ∧
    (∀ (ts : List ReportRow) (i : Nat) (h : i < mets.length),
      rowGet (parseTotalsObj mets (some (trow :: ts))) (mets.get ⟨i, h⟩) =
        some (jsMetricValue (rowMetricRaw trow i))) ∧
    (∀ (pid : String) (runReport : RunReportRequest → Except String RunReportResponse)
      (params : GA4Params) (response : RunReportResponse),
      runReport (buildRequest pid params) = Except.ok response →
      ∃ res : AnalyticsResult,
        queryGA4 (some pid) runReport params = Except.ok res ∧
        res.rows = (destructureD response.rows []).map
          (parseRow (applyDefaults params).dimensions (applyDefaults params).metrics) ∧
        res.totals = parseTotalsObj (applyDefaults params).metrics response.totals) := by
  have hmets : mets.Nodup := List.Nodup.of_append_right hnd
  have hdisj : List.Disjoint dims mets := List.disjoint_of_nodup_append hnd
  have happend := parseRow_eq_append dims mets row hnd
  refine ⟨?_, fun i h => ?_, fun ts i h => ?_,
    fun pid runReport params response hok => ?_⟩
  · rw [happend, List.map_append,
      map_fst_pairs dims.enum (fun j => JVal.str (rowDimValue row j)),
      map_fst_pairs mets.enum (fun j => jsMetricValue (rowMetricRaw row j)),
      enum_map_snd dims, enum_map_snd mets]
  · have hdims : ∀ x ∈ dims.enum.map (fun p => (p.2, JVal.str (rowDimValue row p.1))),
        (fun q => decide (q.1 = mets.get ⟨i, h⟩)) x = false := by
      intro x hx
      obtain ⟨p, hp, rfl⟩ := List.mem_map.1 hx
      have hx1 : p.2 ∈ dims := by
        have hmem : p.2 ∈ dims.enum.map Prod.snd := List.mem_map.2 ⟨p, hp, rfl⟩
        rwa [enum_map_snd dims] at hmem
      have hne : p.2 ≠ mets.get ⟨i, h⟩ := fun hc => hdisj hx1 (hc ▸ List.get_mem mets i h)
      simpa using hne
    have hffind :
        ((mets.enum.map (fun p => (p.2, jsMetricValue (rowMetricRaw row p.1)))).find?
            (fun q => q.1 = mets.get ⟨i, h⟩)) =
          some (mets.get ⟨i, h⟩, jsMetricValue (rowMetricRaw row (0 + i))) :=
      find?_enumFrom_pairs (fun j => jsMetricValue (rowMetricRaw row j)) mets 0 i h hmets
    calc rowGet (parseRow dims mets row) (mets.get ⟨i, h⟩)
        = Option.map (fun p => p.2)
            ((mets.enum.map (fun p => (p.2, jsMetricValue (rowMetricRaw row p.1)))).find?
              (fun q => q.1 = mets.get ⟨i, h⟩)) := by
          unfold rowGet
          rw [happend, find?_append_of_none _ _ hdims]
      _ = some (jsMetricValue (rowMetricRaw row i)) := by
          rw [hffind]
          simp
  · have hffind :
        ((mets.enum.map (fun p => (p.2, jsMetricValue (rowMetricRaw trow p.1)))).find?
            (fun q => q.1 = mets.get ⟨i, h⟩)) =
          some (mets.get ⟨i, h⟩, jsMetricValue (rowMetricRaw trow (0 + i))) :=
      find?_enumFrom_pairs (fun j => jsMetricValue (rowMetricRaw trow j)) mets 0 i h hmets
    have hfold : mets.enum.foldl
          (fun acc p => objSet acc p.2 (jsMetricValue (rowMetricRaw trow p.1))) [] =
        mets.enum.map (fun p => (p.2, jsMetricValue (rowMetricRaw trow p.1))) := by
      have := foldl_objSet_fresh (fun j => jsMetricValue (rowMetricRaw trow j)) mets.enum []
        (by rw [List.map_nil, List.nil_append, enum_map_snd mets]; exact hmets)
      simpa using this
    show Option.map (fun p => p.2)
        ((mets.enum.foldl
            (fun acc p => objSet acc p.2 (jsMetricValue (rowMetricRaw trow p.1))) []).find?
          (fun q => q.1 = mets.get ⟨i, h⟩)) =
      some (jsMetricValue (rowMetricRaw trow i))
    rw [hfold, hffind]
    simp
  · have heq : queryGA4 (some pid) runReport params = Except.ok
        { rows := (destructureD response.rows []).map
            (parseRow (applyDefaults params).dimensions (applyDefaults params).metrics)
          totals := parseTotalsObj (applyDefaults params).metrics response.totals
          metadata :=
            { rowCount := jsOrInt response.rowCount
                (((destructureD response.rows []).map
                  (parseRow (applyDefaults params).dimensions
                    (applyDefaults params).metrics)).length : Int)
              dimensions := (applyDefaults params).dimensions
              metrics := (applyDefaults params).metrics
              dateRange := ((applyDefaults params).startDate, (applyDefaults params).endDate)
              propertyId := pid } } := by
      simp only [queryGA4, hok]
    exact ⟨_, heq, rfl, rfl⟩

/-- **C3** witness: two metrics paired positionally with the two metric
values of a concrete remote row. -/
theorem c3_witness :
    ((["date"] ++ ["totalUsers", "sessions"] : List String)).Nodup ∧
    rowGet
      (parseRow ["date"] ["totalUsers", "sessions"]
        ⟨[some "20260101"], [some "5", some "7"]⟩)
      "sessions" = some (JVal.num (JNum.finite ⟨7, 0⟩)) := by
  refine ⟨by decide, ?_⟩
  have h := (c3_positional_zip ["date"] ["totalUsers", "sessions"]
    ⟨[some "20260101"], [some "5", some "7"]⟩
    ⟨[], [some "5", some "7"]⟩ (by decide)).2.1 1 (by decide)
  exact h.trans rfl

end GAChat
